import Mathlib

/-!
Shallow embedding of the route-plotter plugin (src/plot.cpp) and proofs about
its route parsers, hold geometry, colour ramp and route registry.

Conventions used throughout:
* C++ `double` values are modelled as `ℚ`; the NaN sentinel used for
  discontinuities is modelled by `Option ℚ` with `none` standing for NaN
  (the program never does arithmetic on NaN values, it only stores and
  tests them, so this is faithful).
* Truncating conversions from `double` to integer types (`int x = ...`,
  `long rad_x = ...`) are modelled by `truncQ`, truncation toward zero.
* `std::wstring` labels are modelled as `String` (the program only ever
  copies bytes into them; the byte-to-wide-char conversion is the identity
  on the characters involved).
* Fallible parsing functions return `Except String _` mirroring the
  C++ `bool` return plus the out-parameters `route`/`name`/`error`.
-/

namespace RoutePlotter

/-- Truncation of a rational toward zero, the semantics of a C++
floating-to-integral conversion (`int x = d;`, `long r = d;`). -/
def truncQ (q : ℚ) : ℤ := if q < 0 then -⌊-q⌋ else ⌊q⌋

/-- `struct Hold` of plot.cpp: leg length (nautical miles), inbound course
(degrees), turn direction. -/
structure Hold where
  length : ℚ
  course : ℚ
  left_turns : Bool
deriving DecidableEq, Repr

/-- `struct Node` of plot.cpp: one point of a route.  `lat`/`lon` are `none`
when the C++ stores NaN there (a discontinuity marker). -/
structure Node where
  lat : Option ℚ
  lon : Option ℚ
  highlight : Bool := false
  label : String := ""
  hold : Option Hold := none
deriving DecidableEq, Repr

/-- `Node::IsDiscontinuity`: `std::isnan(lat) || std::isnan(lon)`. -/
def Node.IsDiscontinuity (n : Node) : Bool :=
  n.lat.isNone || n.lon.isNone

/-- `using Route = std::vector<Node>`. -/
abbrev Route := List Node

/-- `HOLD_RADIUS` constant of plot.cpp. -/
def HOLD_RADIUS : ℚ := 2

/-- The colour ramp `static Gdiplus::Color colour(double t)` of plot.cpp,
as an (R, G, B) triple of the `int` channel values passed to the
`Gdiplus::Color(BYTE, BYTE, BYTE)` constructor:

    int x = 255.0 * (1.0 - std::abs(1.0 - t * 2.0));
    return Gdiplus::Color(t < 0.5 ? 255 : x, 0, t > 0.5 ? 255 : x);

For `t` in `[0, 1]` every channel value is in `[0, 255]`, so the conversion
to `BYTE` does not wrap and the `int` triple is the colour produced. -/
def colour (t : ℚ) : ℤ × ℤ × ℤ :=
  let x : ℤ := truncQ (255 * (1 - |1 - t * 2|))
  (if t < 1/2 then 255 else x, 0, if t > 1/2 then 255 else x)

/-- The colour ramp as claim C2 states it (red 255 for `t ≥ 0.5` else `x`,
blue 255 for `t ≤ 0.5` else `x`, green 0).  This definition follows the
wording of the claim, for comparison with `colour` above. -/
def colourClaim (t : ℚ) : ℤ × ℤ × ℤ :=
  let x : ℤ := truncQ (255 * (1 - |1 - 2 * t|))
  (if t ≥ 1/2 then 255 else x, 0, if t ≤ 1/2 then 255 else x)

/-- The colour ramp of the amended claim C2: the red/blue roles are the
mirror image of the claim (red saturated on the low-`t` half, blue on the
high-`t` half). -/
def colourAmended (t : ℚ) : ℤ × ℤ × ℤ :=
  let x : ℤ := truncQ (255 * (1 - |1 - 2 * t|))
  (if t ≤ 1/2 then 255 else x, 0, if t ≥ 1/2 then 255 else x)

/-- The real-valued perpendicular-offset vector of the hold geometry in
`Screen::OnRefresh` (plot.cpp), before the truncating store into `long`:

    double mul = HOLD_RADIUS / hold->length;
    ... (double) leg_y * mul, (double) -leg_x * mul ...

`leg_x`/`leg_y` are the pixel components of the inbound leg vector. -/
def realRad (leg_x leg_y : ℤ) (length : ℚ) : ℚ × ℚ :=
  let mul := HOLD_RADIUS / length
  ((leg_y : ℚ) * mul, ((-leg_x : ℤ) : ℚ) * mul)

/-- The perpendicular-offset vector `(rad_x, rad_y)` of the hold geometry as
the program stores it (`long rad_x = (double) leg_y * mul, ...`), including
the sign flip applied for left-hand turns:

    if (hold->left_turns) { rad_x *= -1; rad_y *= -1; } -/
def holdRad (leg_x leg_y : ℤ) (length : ℚ) (left : Bool) : ℤ × ℤ :=
  let rad_x : ℤ := truncQ (realRad leg_x leg_y length).1
  let rad_y : ℤ := truncQ (realRad leg_x leg_y length).2
  if left then (-rad_x, -rad_y) else (rad_x, rad_y)

/-! ### Coordinate Codec (`CoordsSource::Parse`, plot.cpp) -/

/-- `static signed char decode(char c)` of plot.cpp: the base-62 alphabet
`A`–`Z` → 0–25, `a`–`z` → 26–51, `0`–`9` → 52–61; `none` models the `-1`
returned for every other character. -/
def decode (c : Char) : Option ℕ :=
  if 'A' ≤ c ∧ c ≤ 'Z' then some (c.toNat - 'A'.toNat)
  else if 'a' ≤ c ∧ c ≤ 'z' then some (26 + c.toNat - 'a'.toNat)
  else if '0' ≤ c ∧ c ≤ '9' then some (52 + c.toNat - '0'.toNat)
  else none

/-- The position decoded from one 7-character word `w0..w6` in
`CoordsSource::Parse`:

    item.lat = word[1] + ((double) word[2] + (double) word[3] / 60) / 60;
    item.lon = word[4] + ((double) word[5] + (double) word[6] / 60) / 60;
    item.lat += 60.0 * ((word[0] >> 2) & 0b01);
    item.lon += 60.0 * ((word[0] >> 4) & 0b11);
    if (word[0] & 0b0010) item.lat = -item.lat;
    if (word[0] & 0b1000) item.lon = -item.lon; -/
def wordPos (w0 w1 w2 w3 w4 w5 w6 : ℕ) : ℚ × ℚ :=
  let lat0 : ℚ := (w1 : ℚ) + ((w2 : ℚ) + (w3 : ℚ) / 60) / 60
  let lon0 : ℚ := (w4 : ℚ) + ((w5 : ℚ) + (w6 : ℚ) / 60) / 60
  let lat1 : ℚ := lat0 + 60 * (((w0 >>> 2) &&& 1 : ℕ) : ℚ)
  let lon1 : ℚ := lon0 + 60 * (((w0 >>> 4) &&& 3 : ℕ) : ℚ)
  (if w0 &&& 2 ≠ 0 then -lat1 else lat1, if w0 &&& 8 ≠ 0 then -lon1 else lon1)

/-- The decoded position as the spec and claim C6 state it in closed form:
`lat = w1 + (w2 + w3/60)/60`, plus 60° if bit 2 of `w0` is set, negated if
bit 1 is set; `lon = w4 + (w5 + w6/60)/60`, plus 60° times the two-bit
field in bits 4–5 of `w0`, negated if bit 3 is set.  Bit `k` of `w0` is
`(w0 / 2^k) % 2`.  This definition follows the claim wording, for
comparison with `wordPos` above. -/
def wordPosSpec (w0 w1 w2 w3 w4 w5 w6 : ℕ) : ℚ × ℚ :=
  let latBase : ℚ :=
    (w1 : ℚ) + ((w2 : ℚ) + (w3 : ℚ) / 60) / 60 + (if (w0 / 4) % 2 = 1 then 60 else 0)
  let lonBase : ℚ :=
    (w4 : ℚ) + ((w5 : ℚ) + (w6 : ℚ) / 60) / 60 + 60 * (((w0 / 16) % 4 : ℕ) : ℚ)
  ((if (w0 / 2) % 2 = 1 then -1 else 1) * latBase,
   (if (w0 / 8) % 2 = 1 then -1 else 1) * lonBase)

/-- The hold decoded from the two extra characters of a word
(`extra1 < 60`, then `extra2`):

    item.hold = Hold(
      (double) (extra2 & 0b1111),
      6.0 * (double) extra1 + ((extra2 >> 5) ? 3.0 : 0.0),
      ((extra2 >> 4) & 1) == 1
    ); -/
def wordHold (extra1 extra2 : ℕ) : Hold :=
  { length := ((extra2 &&& 15 : ℕ) : ℚ)
    course := 6 * (extra1 : ℚ) + (if extra2 >>> 5 ≠ 0 then 3 else 0)
    left_turns := (extra2 >>> 4) &&& 1 == 1 }

/-- The label scan of `CoordsSource::Parse` (the `*command == '('` branch):
characters are consumed up to the bracket that returns the nesting count to
zero; that closing bracket is excluded from the label text and consumed.
`count` is the C++ `int count` (1 on entry), `acc` the text scanned so far.
Running out of characters gives the "missing closing bracket" error; the
source additionally has undefined behaviour when the text ends immediately
after a bracket with a positive count (it then reads past the buffer with
an uninitialised or stale `end` pointer), which this model also reports as
the missing-bracket error. -/
def labelScan (count : ℕ) (acc : List Char) : List Char → Except String (List Char × List Char)
  | [] => .error "missing closing bracket"
  | c :: cs =>
    if c = '(' then labelScan (count + 1) (acc ++ [c]) cs
    else if c = ')' then
      if count = 1 then .ok (acc, cs)
      else labelScan (count - 1) (acc ++ [c]) cs
    else labelScan count (acc ++ [c]) cs

/-- `route.back().label = ...`: update the last element of a list. -/
def updateLast (f : Node → Node) : List Node → List Node
  | [] => []
  | [n] => [f n]
  | n :: rest => n :: updateLast f rest

theorem labelScan_rest_lt (cs : List Char) :
    ∀ (count : ℕ) (acc content rest : List Char),
      labelScan count acc cs = .ok (content, rest) → rest.length < cs.length := by
  induction cs with
  | nil => intro count acc content rest h; simp [labelScan] at h
  | cons c cs ih =>
    intro count acc content rest h
    simp only [labelScan] at h
    split_ifs at h with h1 h2 h3
    · exact Nat.lt_succ_of_lt (ih _ _ _ _ h)
    · rw [Except.ok.injEq, Prod.mk.injEq] at h
      rw [← h.2]
      simp [Nat.lt_succ_self]
    · exact Nat.lt_succ_of_lt (ih _ _ _ _ h)
    · exact Nat.lt_succ_of_lt (ih _ _ _ _ h)

/-- The fresh scan state `Node item;` of `CoordsSource::Parse`.  In the
source `item.lat` and `item.lon` start uninitialised; they are modelled as
the NaN sentinel (no claim depends on the longitude a leading `-` node
inherits, and its latitude is overwritten before use in every branch). -/
def initNode : Node :=
  { lat := none, lon := none, highlight := false, label := "", hold := none }

/-- The word branch of the scanning loop of `CoordsSource::Parse`, with the
leading character already decoded to `w0`: read the six further word
characters, then (when the low bit of `w0` is set) one extra character, and
(when that is below 60) a second one; produce the node pushed for the word
and the unconsumed remainder of the text.  Running off the end of the text
reads the terminating NUL in the source, which fails `decode` exactly like
an in-text invalid character ("invalid character"). -/
def wordScan (w0 : ℕ) (cs : List Char) : Except String (Node × List Char) :=
  match cs with
  | c1 :: c2 :: c3 :: c4 :: c5 :: c6 :: rest =>
    match decode c1, decode c2, decode c3, decode c4, decode c5, decode c6 with
    | some w1, some w2, some w3, some w4, some w5, some w6 =>
      if w0 &&& 1 ≠ 0 then
        match rest with
        | [] => .error "invalid character"
        | e1 :: rest1 =>
          match decode e1 with
          | none => .error "invalid character"
          | some x1 =>
            if 60 ≤ x1 then
              .ok ({ lat := some (wordPos w0 w1 w2 w3 w4 w5 w6).1,
                     lon := some (wordPos w0 w1 w2 w3 w4 w5 w6).2,
                     highlight := true, label := "", hold := none }, rest1)
            else
              match rest1 with
              | [] => .error "invalid character"
              | e2 :: rest2 =>
                match decode e2 with
                | none => .error "invalid character"
                | some x2 =>
                  .ok ({ lat := some (wordPos w0 w1 w2 w3 w4 w5 w6).1,
                         lon := some (wordPos w0 w1 w2 w3 w4 w5 w6).2,
                         highlight := false, label := "",
                         hold := some (wordHold x1 x2) }, rest2)
      else
        .ok ({ lat := some (wordPos w0 w1 w2 w3 w4 w5 w6).1,
               lon := some (wordPos w0 w1 w2 w3 w4 w5 w6).2,
               highlight := false, label := "", hold := none }, rest)
    | _, _, _, _, _, _ => .error "invalid character"
  | _ => .error "invalid character"

theorem wordScan_rest_lt (w0 : ℕ) (cs : List Char) (n : Node) (rest : List Char)
    (h : wordScan w0 cs = .ok (n, rest)) : rest.length < cs.length := by
  unfold wordScan at h
  repeat' split at h
  all_goals simp_all
  all_goals omega

/-- The scanning loop `while (*(++command))` of `CoordsSource::Parse`.
`item` is the reused `Node item` buffer (note: the `-` branch only assigns
`lat` and `highlight`, so `lon` and `hold` keep their previous values), and
`route` the output vector built so far; `item.label` is cleared before
every push (`item.label.clear(); route.push_back(item);`). -/
def coordsScan (item : Node) (route : List Node) :
    List Char → Except String (List Node)
  | [] => .ok route
  | c :: cs' =>
    if c = '(' ∧ route ≠ [] then
      match h : labelScan 1 [] cs' with
      | .error e => .error e
      | .ok (content, rest) =>
        coordsScan item
          (updateLast (fun n => { n with label := String.mk (content ++ [Char.ofNat 0]) }) route)
          rest
    else if c = '-' then
      let item' : Node := { item with lat := none, highlight := false, label := "" }
      coordsScan item' (route ++ [item']) cs'
    else
      match decode c with
      | none => .error "invalid structural character"
      | some w0 =>
        match h : wordScan w0 cs' with
        | .error e => .error e
        | .ok (item', rest) => coordsScan item' (route ++ [item']) rest
  termination_by cs => cs.length
  decreasing_by
    all_goals simp only [List.length_cons]
    all_goals first
      | omega
      | exact Nat.lt_succ_of_lt (labelScan_rest_lt _ _ _ _ _ h)
      | exact Nat.lt_succ_of_lt (wordScan_rest_lt _ _ _ _ h)

/-- The scan applied to the remaining raw text, including the handling of
the first character:

    if (command[0] != '@') command--;
    while (*(++command)) ...

i.e. a leading `@` is skipped, every other first character is scanned. -/
def coordsParseRem (cs : List Char) : Except String (List Node) :=
  match cs with
  | '@' :: rest => coordsScan initNode [] rest
  | _ => coordsScan initNode [] cs

/-- The whole of `CoordsSource::Parse`: the missing-string check, the
optional route-name extraction (when more than one argument token remains
and the first contains no `(`, it is consumed as the name and the text
cursor advances past it and following spaces), then the scan.  Returns the
route and the name, `none` when the caller-supplied name is kept. -/
def coordsParseFull (args : List String) (command : List Char) :
    Except String (List Node × Option String) :=
  match args with
  | [] => .error "missing string"
  | a0 :: restArgs =>
    if command = [] then .error "missing string"
    else
      let consume := restArgs ≠ [] ∧ a0.toList.contains '(' = false
      let command' :=
        if consume then (command.drop a0.length).dropWhile (· = ' ') else command
      match coordsParseRem command' with
      | .error e => .error e
      | .ok route => .ok (route, if consume then some a0 else none)

/-- The hold carried by the scan buffer after the nodes of `l` have been
pushed, starting from `h0`: a pushed word node overwrites it, a pushed
discontinuity leaves it unchanged (the stale-buffer semantics of
`CoordsSource::Parse`). -/
def afterHold (h0 : Option Hold) (l : List Node) : Option Hold :=
  l.foldl (fun h n => if n.IsDiscontinuity then h else n.hold) h0

/-- The amended data-model invariant of claim C3, as a decidable predicate:
walking the route left to right, every discontinuity node has an empty
label and carries exactly the hold of the nearest preceding
non-discontinuity node (`h0` when there is none). -/
def discsOk : Option Hold → List Node → Bool
  | _, [] => true
  | h0, n :: rest =>
    (!n.IsDiscontinuity || (n.label == "" && n.hold == h0)) &&
      discsOk (if n.IsDiscontinuity then h0 else n.hold) rest

/-! ### Route Resolver (`RouteSource::Parse`, plot.cpp)

The sector-file enumeration loop (`SectorFileElementSelectFirst` /
`SelectNext`) queries the host's navigation database; it is an external
collaborator, so its outcome is abstracted into inputs of the model:
`db` is the name-to-position fill performed for airports/VORs/NDBs/fixes,
`atsDb` the position-sequence fill for named airways, and `sid`, `star`,
`adep`, `ades` the departure/arrival procedure sequences and aerodrome
positions the loop finds (empty/arbitrary when it finds none; `adep`,
`ades` and the initial `seg_start` are uninitialised in the source and
stay unread on the paths where the loop found nothing). -/

/-- The resolver-internal `struct Position`; a component is `none` where
the C++ stores NaN. -/
structure Position where
  lat : Option ℚ
  lon : Option ℚ
deriving DecidableEq, Repr

/-- C++ `==` on two modelled doubles: NaN compares unequal to everything,
itself included. -/
def valEq : Option ℚ → Option ℚ → Bool
  | some a, some b => a == b
  | _, _ => false

/-- The defaulted `operator==(const Position &)`: memberwise double
equality, hence false whenever a NaN member is involved. -/
def posEq (p q : Position) : Bool := valEq p.lat q.lat && valEq p.lon q.lon

/-- The resolver-internal `struct Point`: token name, optional runway
designator, hold spec.  As in the source only `hold.len` is
pre-initialised (to 0, meaning "no hold"); `holdCrs`/`holdLh` are
uninitialised there and only read when `holdLen ≠ 0`, so the defaults
here are inconsequential. -/
structure RPoint where
  name : String
  runway : Option String := none
  holdLen : ℤ := 0
  holdCrs : ℤ := 0
  holdLh : Bool := false
deriving DecidableEq, Repr

/-- Value of a digit string, the way `strtoul`/`stoi` accumulate it. -/
def digitsVal (cs : List Char) : ℕ :=
  cs.foldl (fun a c => 10 * a + (c.toNat - '0'.toNat)) 0

/-- `std::stoi` on the substrings the hold-suffix parser feeds it: an
optional sign, then at least one digit; anything after the digits is
ignored (the dispatcher splits tokens on spaces, so no leading whitespace
occurs).  `none` models the `std::invalid_argument` throw caught as
"invalid integer". -/
def stoiM (cs : List Char) : Option ℤ :=
  match cs with
  | '-' :: rest =>
    if rest.takeWhile Char.isDigit = [] then none
    else some (-(digitsVal (rest.takeWhile Char.isDigit) : ℤ))
  | '+' :: rest =>
    if rest.takeWhile Char.isDigit = [] then none
    else some ((digitsVal (rest.takeWhile Char.isDigit) : ℤ))
  | _ =>
    if cs.takeWhile Char.isDigit = [] then none
    else some ((digitsVal (cs.takeWhile Char.isDigit) : ℤ))

/-- Parsing of one point token (`NAME` or `NAME/SUFFIX`), lines 605–641 of
plot.cpp: a suffix longer than 3 characters is a hold spec (3-digit course,
`L`/`R` turn letter, optional leg length defaulting to 4), a suffix of at
most 3 characters is a runway designator, legal only on the first or last
token. -/
def pointParse (tok : String) (isFirst isLast : Bool) : Except String RPoint :=
  let s := tok.toList
  match s.findIdx? (· == '/') with
  | none => .ok { name := tok }
  | some slash =>
    let name := String.mk (s.take slash)
    let suf := s.drop (slash + 1)
    if 3 < suf.length then
      match stoiM (suf.take 3) with
      | none => .error "invalid integer"
      | some crs =>
        let dir := (suf.getD 3 ' ').toUpper
        if dir ≠ 'R' ∧ dir ≠ 'L' then .error "invalid hold direction"
        else
          match (if suf.drop 4 ≠ [] then stoiM (suf.drop 4) else some 4) with
          | none => .error "invalid integer"
          | some len =>
            .ok { name := name, holdCrs := crs, holdLen := len, holdLh := dir = 'L' }
    else if isFirst ∨ isLast then .ok { name := name, runway := some (String.mk suf) }
    else .error "runway in nonterminal location"

/-- The accumulation loop of the coordinate-literal parser
(`for (int i = count/2; i > 1; i--) { v += x % 100; v /= 60; x /= 100 }`):
`k` iterations folding two-digit groups from the right into sixtieths. -/
def accLoop : ℕ → ℕ → ℚ → ℚ × ℕ
  | 0, x, acc => (acc, x)
  | k + 1, x, acc => accLoop k (x / 100) ((acc + ((x % 100 : ℕ) : ℚ)) / 60)

/-- The consumption of `std::strtoul(p, &end, 10)` on the token text
(tokens hold no whitespace, so the leading-whitespace skip never fires):
an optional single `+`/`-` sign, then a digit run; the result is the
unconsumed remainder (`end`).  When no digit follows the optional sign no
conversion is performed and `end` is the start pointer `p` itself — the
sign is then not consumed either. -/
def strtoulRest (cs : List Char) : List Char :=
  match cs with
  | '+' :: rest =>
    if rest.takeWhile Char.isDigit = [] then cs else rest.dropWhile Char.isDigit
  | '-' :: rest =>
    if rest.takeWhile Char.isDigit = [] then cs else rest.dropWhile Char.isDigit
  | _ => cs.dropWhile Char.isDigit

/-- Digit-run conversion of `strtoulVal`: the run's value, negated in the
unsigned type when the sign was `-`, 0 when the run is empty (no
conversion performed), and `ULONG_MAX` whenever the run's magnitude
overflows (`unsigned long` is 32 bits on the Windows/LLP64 target, and
the CRT returns `ULONG_MAX` on overflow regardless of the sign). -/
def strtoulConv (ds : List Char) (neg : Bool) : ℕ :=
  if ds.takeWhile Char.isDigit = [] then 0
  else
    let v := digitsVal (ds.takeWhile Char.isDigit)
    if 2 ^ 32 - 1 < v then 2 ^ 32 - 1
    else if neg then (2 ^ 32 - v) % 2 ^ 32 else v

/-- The value `std::strtoul(p, _, 10)` returns for the same text. -/
def strtoulVal (cs : List Char) : ℕ :=
  match cs with
  | '+' :: rest => strtoulConv rest false
  | '-' :: rest => strtoulConv rest true
  | _ => strtoulConv cs false

/-- The coordinate-literal parser for a digit-leading name, lines 645–672
of plot.cpp.  The intended form is `<lat-digits><N|S><lon-digits><E|W>`,
each digit run split from the right into 2-digit groups (seconds, then
minutes) with the leading digits as whole degrees — but the runs are read
with `std::strtoul`, which also accepts an optional `+`/`-` sign before a
run (reachable only for the longitude run, since the name must begin with
a digit to enter this parser) and clamps overflow to `ULONG_MAX`, a `-`
value wrapping through the 32-bit unsigned type; characters after the
`E`/`W` are never examined.  Both `goto ll_fail` paths fire before any
accumulation, so a literal failing the guards leaves the position at the
initialiser `{ 0.0, 0.0 }`.  The group counts `(lat_sign - src) / 2` and
`(lon_sign - lat_sign - 1) / 2` count consumed characters, a consumed
sign included. -/
def parseLiteral (cs : List Char) : Position :=
  match strtoulRest cs with
  | [] => { lat := some 0, lon := some 0 }
  | latSign :: rest1 =>
    if latSign ≠ 'N' ∧ latSign ≠ 'S' then { lat := some 0, lon := some 0 }
    else
      match strtoulRest rest1 with
      | [] => { lat := some 0, lon := some 0 }
      | lonSign :: rest2 =>
        if lonSign ≠ 'E' ∧ lonSign ≠ 'W' then { lat := some 0, lon := some 0 }
        else
          let latCount := cs.length - rest1.length - 1
          let lonCount := rest1.length - rest2.length - 1
          let latAcc := accLoop (latCount / 2 - 1) (strtoulVal cs) 0
          let lonAcc := accLoop (lonCount / 2 - 1) (strtoulVal rest1) 0
          { lat := some ((latAcc.1 + (latAcc.2 : ℚ)) * (if latSign = 'S' then -1 else 1))
            lon := some ((lonAcc.1 + (lonAcc.2 : ℚ)) * (if lonSign = 'W' then -1 else 1)) }

/-- The structure the literal parser's two guards actually test: a number
`strtoul` accepts (a digit run, optionally preceded by one `+`/`-` sign —
the sign only reachable for the longitude run), then `N`/`S`, then such a
number, then `E`/`W`; anything after the `E`/`W` goes unchecked.  This is
the code's notion of a well-formed literal against which claim C1 is
settled; note it is laxer than the claim's sign-less
`<lat-digits><N|S><lon-digits><E|W>` grammar. -/
def literalShapeOk (cs : List Char) : Bool :=
  match strtoulRest cs with
  | [] => false
  | latSign :: rest1 =>
    (latSign == 'N' || latSign == 'S') &&
      match strtoulRest rest1 with
      | [] => false
      | lonSign :: _ => lonSign == 'E' || lonSign == 'W'

/-- The pre-resolution of one point token's position (lines 643–677):
digit-leading names are parsed as coordinate literals, all other names get
the NaN latitude marker (`position.lat = NAN`; the longitude keeps the
`0.0` initialiser) so that only a database hit can make them resolvable.
An empty name reads `point.name[0]` out of bounds in the source; the model
takes the lookup branch for it. -/
def preResolveChars (cs : List Char) : Position :=
  match cs with
  | c :: _ => if '0' ≤ c ∧ c ≤ '9' then parseLiteral cs else { lat := none, lon := some 0 }
  | [] => { lat := none, lon := some 0 }

/-- `point_positions.emplace` / `ats_route_positions.emplace`: insertion
that keeps an existing key's value. -/
def insertPP (k : String) (v : Position) (m : List (String × Position)) :
    List (String × Position) :=
  if (m.lookup k).isSome then m else m ++ [(k, v)]

/-- Key set of `ats_route_positions` (`emplace` keeps the first
occurrence). -/
def insertKeyIfAbsent (k : String) (ks : List String) : List String :=
  if k ∈ ks then ks else ks ++ [k]

/-- The token walk of `RouteSource::Parse` (lines 602–685): the parity flag
`p` alternates point and connector tokens; points are parsed and
pre-resolved, a `DCT` connector is recorded as the empty (null-data)
`string_view`, any other connector as a named airway with an empty
position vector emplaced. -/
def tokensGo (total : ℕ) : ℕ → List String →
    (List RPoint × List (Option String) × List (String × Position) × List String) →
    Except String (List RPoint × List (Option String) × List (String × Position) × List String)
  | _, [], acc => .ok acc
  | idx, t :: rest, (points, ats, ppos, aks) =>
    if idx % 2 = 0 then
      match pointParse t (idx = 0) (idx = total - 1) with
      | .error e => .error e
      | .ok pt =>
        tokensGo total (idx + 1) rest
          (points ++ [pt], ats, insertPP pt.name (preResolveChars pt.name.toList) ppos, aks)
    else if t = "DCT" then
      tokensGo total (idx + 1) rest (points, ats ++ [none], ppos, aks)
    else
      tokensGo total (idx + 1) rest (points, ats ++ [some t], ppos, insertKeyIfAbsent t aks)

/-- The front of `RouteSource::Parse`: a token list of even length starts
with the route name (`if ((end - start) % 2 == 0) name = *(start++);`),
then the token walk.  An empty token list dereferences the end iterator in
the source (undefined behaviour, reachable only through a command with no
route text); the model reports it as an error. -/
def routeTokensPhase (tokens : List String) :
    Except String (Option String × List RPoint × List (Option String)
      × List (String × Position) × List String) :=
  match tokens with
  | [] => .error "missing route"
  | t0 :: rest =>
    let nm : Option String := if tokens.length % 2 = 0 then some t0 else none
    let work := if tokens.length % 2 = 0 then rest else tokens
    match tokensGo work.length 0 work ([], [], [], []) with
    | .error e => .error e
    | .ok (points, ats, ppos, aks) => .ok (nm, points, ats, ppos, aks)

/-- The consecutive-duplicate filter applied while an airway's positions
are fetched (`if (vec.empty() || npos != vec.back()) vec.push_back(npos)`). -/
def dedupConsec (l : List Position) : List Position :=
  l.foldl (fun acc p =>
    match acc.getLast? with
    | none => acc ++ [p]
    | some q => if posEq p q then acc else acc ++ [p]) []

/-- Element of a position sequence at an index (indices produced by the
splice are always in range; the default is never read). -/
def posGetD (l : List Position) (k : ℕ) : Position := l.getD k { lat := none, lon := none }

/-- The splice of lines 805–837 of plot.cpp: locate `seg_start` in the
governing sequence by value (`std::find`, first match) unless the sequence
is the departure procedure (anchored at its start, `from = cbegin`), locate
`seg_end` unless it is the arrival procedure (anchored at its end,
`to = cend`), then copy `[from+1, to)` forward (`[from, to)` for an
anchored procedure), or `(to, from)` backward when `from` is not before
`to`. -/
def splice (isSid isStar : Bool) (seq : List Position) (segStart segEnd : Position)
    (prevName atsName ptName : String) : Except String (List Position) :=
  match (if isSid then some 0 else seq.findIdx? (fun p => posEq p segStart)) with
  | none => .error ("discontinuity (" ++ prevName ++ " to " ++ atsName ++ ")")
  | some fi =>
    match (if isStar then some seq.length else seq.findIdx? (fun p => posEq p segEnd)) with
    | none => .error ("discontinuity (" ++ atsName ++ " to " ++ ptName ++ ")")
    | some ti =>
      if fi < ti then
        .ok ((List.range' (if isSid || isStar then fi else fi + 1)
          (ti - (if isSid || isStar then fi else fi + 1))).map (posGetD seq))
      else
        .ok (((List.range' (ti + 1) (fi - (ti + 1))).reverse).map (posGetD seq))

/-- The endpoint resolution for point `i` (lines 773–786): the departure
aerodrome for the first point when a departure procedure was found, the
arrival aerodrome for the last point when an arrival procedure was found,
otherwise the pre-resolved (and possibly database-overwritten) position —
failing when it is absent or has the NaN latitude marker. -/
def resolveEndpoint (points : List RPoint) (ppos : List (String × Position))
    (sid star : List Position) (adep ades : Position) (i : ℕ) :
    Except String Position :=
  if i = 0 ∧ sid ≠ [] then .ok adep
  else if i = points.length - 1 ∧ star ≠ [] then .ok ades
  else
    let nm := (points.getD i { name := "" }).name
    match ppos.lookup nm with
    | none => .error ("could not find point " ++ nm)
    | some pos =>
      if pos.lat = none then .error ("could not find point " ++ nm) else .ok pos

/-- The splice performed before appending point `i` (lines 788–837): no
splice for the first point or a `DCT` connector (null `string_view`), the
departure-procedure sequence for the first connector when one was found,
the arrival-procedure sequence for the last connector when one was found,
otherwise the named airway's fetched sequence. -/
def spliceStep (points : List RPoint) (ats : List (Option String))
    (amap : List (String × List Position)) (sid star : List Position)
    (i : ℕ) (segStart segEnd : Position) : Except String (List Position) :=
  if i = 0 then .ok []
  else
    match ats.getD (i - 1) none with
    | none => .ok []
    | some atsName =>
      let prevName := (points.getD (i - 1) { name := "" }).name
      let ptName := (points.getD i { name := "" }).name
      if i = 1 ∧ sid ≠ [] then
        splice true false sid segStart segEnd prevName atsName ptName
      else if i = points.length - 1 ∧ star ≠ [] then
        splice false true star segStart segEnd prevName atsName ptName
      else
        match amap.lookup atsName with
        | none => .error ("could not find airway " ++ atsName)
        | some seq => splice false false seq segStart segEnd prevName atsName ptName

/-- A spliced-in intermediate position as a route node
(`route.push_back({ it->lat, it->lon })`). -/
def posNode (p : Position) : Node :=
  { lat := p.lat, lon := p.lon, highlight := false, label := "", hold := none }

/-- The node appended for point `i` itself (lines 839–858): hold attached
when the parsed hold length is nonzero, label equal to the point's name
unless the name is digit-leading (a coordinate literal).  An empty name
reads `name[0]` out of bounds in the source; the model attaches no label. -/
def mkWalkNode (pt : RPoint) (seg : Position) : Node :=
  { lat := seg.lat
    lon := seg.lon
    highlight := false
    label :=
      match pt.name.toList with
      | [] => ""
      | c :: _ => if c < '0' ∨ '9' < c then pt.name else ""
    hold :=
      if pt.holdLen ≠ 0 then
        some { length := (pt.holdLen : ℚ), course := (pt.holdCrs : ℚ),
               left_turns := pt.holdLh }
      else none }

/-- The resolution walk over the points (lines 773–861), `star` already
carrying the appended arrival-aerodrome position. -/
def walkGo (points : List RPoint) (ats : List (Option String))
    (ppos : List (String × Position)) (amap : List (String × List Position))
    (sid star : List Position) (adep ades : Position) :
    ℕ → Position → Route → Except String Route
  | i, segStart, route =>
    if h : i < points.length then
      match resolveEndpoint points ppos sid star adep ades i with
      | .error e => .error e
      | .ok segEnd =>
        match spliceStep points ats amap sid star i segStart segEnd with
        | .error e => .error e
        | .ok ins =>
          walkGo points ats ppos amap sid star adep ades (i + 1) segEnd
            (route ++ ins.map posNode ++ [mkWalkNode (points.getD i { name := "" }) segEnd])
    else .ok route
  termination_by i => points.length - i
  decreasing_by omega

/-- Lines 769–863 of `RouteSource::Parse`: append the arrival aerodrome to
a found arrival procedure (`if (!star.empty()) star.push_back(ades);`),
then walk the points.  The initial `seg_start` is uninitialised in the
source and unread (iteration 0 performs no splice); the model passes a
dummy origin. -/
def resolveWalk (points : List RPoint) (ats : List (Option String))
    (ppos : List (String × Position)) (amap : List (String × List Position))
    (sid star : List Position) (adep ades : Position) : Except String Route :=
  let starA := if star = [] then star else star ++ [ades]
  walkGo points ats ppos amap sid starA adep ades 0 { lat := some 0, lon := some 0 } []

/-- The overwrite of `point_positions` entries performed by the sector-file
loop for airports, VORs, NDBs and fixes the database knows
(`std::get<1>(*it) = { pos.m_Latitude, pos.m_Longitude }`): values change
where `db` has the name, no keys are added. -/
def fillPositions (db : String → Option (ℚ × ℚ)) (ppos : List (String × Position)) :
    List (String × Position) :=
  ppos.map (fun e =>
    match db e.1 with
    | some q => (e.1, { lat := some q.1, lon := some q.2 })
    | none => e)

/-- The airway-sequence fetch of the sector-file loop: each emplaced
connector key receives the database's position list with consecutive
duplicates dropped, or stays empty when the database does not know the
name. -/
def fillAirways (atsDb : String → Option (List (ℚ × ℚ))) (aks : List String) :
    List (String × List Position) :=
  aks.map (fun k =>
    (k, match atsDb k with
        | some l => dedupConsec (l.map (fun q => { lat := some q.1, lon := some q.2 }))
        | none => []))

/-- The whole of `RouteSource::Parse`, with the sector-file enumeration
abstracted into `db`, `atsDb`, `sid`, `star`, `adep`, `ades` (see the
section comment): token phase, database fill, resolution walk.  Returns
the route and the parsed name (`none` when the caller-supplied name is
kept). -/
def routeSourceParse (db : String → Option (ℚ × ℚ))
    (atsDb : String → Option (List (ℚ × ℚ)))
    (sid star : List Position) (adep ades : Position) (tokens : List String) :
    Except String (Option String × Route) :=
  match routeTokensPhase tokens with
  | .error e => .error e
  | .ok (nm, points, ats, ppos0, aks) =>
    match resolveWalk points ats (fillPositions db ppos0) (fillAirways atsDb aks)
        sid star adep ades with
    | .error e => .error e
    | .ok route => .ok (nm, route)

/-! ### Route Registry and command dispatch (`Plugin::OnCompileCommand`) -/

/-- The plugin state `OnCompileCommand` mutates: the name-keyed route
registry (`std::unordered_map<std::string, Route> routes`, modelled as an
association list with unique keys) and the auto-naming counter. -/
structure PluginState where
  routes : List (String × Route)
  name_counter : ℤ
deriving DecidableEq

/-- `routes.erase(name)`. -/
def eraseRoute (k : String) (m : List (String × Route)) : List (String × Route) :=
  m.filter (fun e => e.1 != k)

/-- `routes[name] = route`: overwrite the entry of an existing key, append
a new entry otherwise. -/
def insertRoute (k : String) (v : Route) (m : List (String × Route)) :
    List (String × Route) :=
  if (m.lookup k).isSome then m.map (fun e => if e.1 = k then (k, v) else e)
  else m ++ [(k, v)]

/-- `Plugin::OnCompileCommand` (lines 356–435 of plot.cpp) over the
pre-tokenized command words (`parts`, the whitespace split the
`istream_iterator` loop performs).  The polymorphic `sources[kind]->Parse`
call is abstracted as `parse kind autoName args`: it receives the selected
source kind, the auto-generated name `std::to_string(++name_counter)` and
the argument tokens (the raw-text cursor the C++ also passes is a function
of those tokens), and returns the route and the final name — the parsers
may overwrite the caller's `name` out-parameter.  `display_message`,
`display_command` and `RefreshMapContent` touch no registry state and are
dropped.  Result: the C++ `bool` return and the new plugin state. -/
def onCompileCommand
    (parse : String → String → List String → Except String (Route × String))
    (st : PluginState) (parts : List String) : Bool × PluginState :=
  match parts with
  | [] => (false, st)
  | p0 :: rest =>
    if p0 ≠ ".plot" then (false, st)
    else
      match rest with
      | [] => (true, st)
      | p1 :: args =>
        if p1 = "help" then (true, st)
        else if p1 = "clear" then
          if args ≠ [] then
            (true, { st with routes := args.foldl (fun m k => eraseRoute k m) st.routes })
          else (true, { st with routes := [] })
        else
          let known := p1 = "coords" ∨ p1 = "route"
          let kind := if known then p1 else "route"
          let argsK := if known then args else p1 :: args
          let counter := st.name_counter + 1
          match parse kind (toString counter) argsK with
          | .ok (route, nm) =>
            if route.length > 0 then
              (true, { routes := insertRoute nm route st.routes, name_counter := counter })
            else (true, { st with name_counter := counter })
          | .error _ => (false, { st with name_counter := counter })

/-! ### Helper lemmas -/

theorem findIdxQ_lt_end {α : Type} (p : α → Bool) :
    ∀ (l : List α) (s i : ℕ), List.findIdx? p l s = some i → i < s + l.length := by
  intro l
  induction l with
  | nil => intro s i h; simp [List.findIdx?] at h
  | cons x l ih =>
    intro s i h
    rw [List.findIdx?] at h
    split_ifs at h with hp
    · rw [Option.some.injEq] at h
      simp only [List.length_cons]
      omega
    · have := ih (s + 1) i h
      simp only [List.length_cons]
      omega

theorem range'_map_posGetD (l : List Position) : ∀ (n a : ℕ), a + n ≤ l.length →
    (List.range' a n).map (posGetD l) = (l.drop a).take n := by
  intro n
  induction n with
  | zero => intro a _; simp
  | succ n ih =>
    intro a h
    have ha : a < l.length := by omega
    rw [List.range'_succ, List.map_cons, List.drop_eq_getElem_cons ha]
    rw [List.take_succ_cons, ih (a + 1) (by omega)]
    congr 1
    simp [posGetD, List.getD_eq_getElem?_getD, List.getElem?_eq_getElem ha]

theorem mem_eraseRoute (e : String × Route) (k : String) (m : List (String × Route)) :
    e ∈ eraseRoute k m → e ∈ m :=
  fun h => (List.mem_filter.mp h).1

theorem mem_eraseRoute_foldl (e : String × Route) :
    ∀ (ks : List String) (m : List (String × Route)),
      e ∈ ks.foldl (fun m k => eraseRoute k m) m → e ∈ m := by
  intro ks
  induction ks with
  | nil => intro m h; exact h
  | cons k ks ih => intro m h; exact mem_eraseRoute e k m (ih _ h)

theorem mem_insertRoute (e : String × Route) (k : String) (v : Route)
    (m : List (String × Route)) : e ∈ insertRoute k v m → e = (k, v) ∨ e ∈ m := by
  intro h
  unfold insertRoute at h
  split_ifs at h
  · obtain ⟨x, hx, hfx⟩ := List.mem_map.mp h
    by_cases hk : x.1 = k
    · rw [if_pos hk] at hfx
      exact Or.inl hfx.symm
    · rw [if_neg hk] at hfx
      exact Or.inr (hfx ▸ hx)
  · rcases List.mem_append.mp h with hm | he
    · exact Or.inr hm
    · exact Or.inl (List.mem_singleton.mp he)

theorem wordScan_ok_props (w0 : ℕ) (cs : List Char) (n : Node) (rest : List Char)
    (h : wordScan w0 cs = .ok (n, rest)) :
    n.IsDiscontinuity = false ∧ n.label = "" ∧ rest <:+ cs := by
  unfold wordScan at h
  repeat' split at h
  any_goals exact Except.noConfusion h
  all_goals rw [Except.ok.injEq, Prod.mk.injEq] at h
  all_goals obtain ⟨hn, hr⟩ := h
  all_goals subst hn hr
  all_goals refine ⟨rfl, rfl, ?_⟩
  all_goals repeat first
    | exact List.suffix_rfl
    | refine List.IsSuffix.trans ?_ (List.suffix_cons _ _)

theorem afterHold_cons (h0 : Option Hold) (m : Node) (l : List Node) :
    afterHold h0 (m :: l) = afterHold (if m.IsDiscontinuity then h0 else m.hold) l := by
  simp [afterHold]

theorem afterHold_append_singleton (h0 : Option Hold) (l : List Node) (n : Node) :
    afterHold h0 (l ++ [n]) = if n.IsDiscontinuity then afterHold h0 l else n.hold := by
  simp [afterHold, List.foldl_append]

theorem discsOk_append_singleton (h0 : Option Hold) (l : List Node) (n : Node) :
    discsOk h0 (l ++ [n])
      = (discsOk h0 l &&
          (!n.IsDiscontinuity || (n.label == "" && n.hold == afterHold h0 l))) := by
  induction l generalizing h0 with
  | nil => simp [discsOk, afterHold]
  | cons m l ih =>
    simp only [List.cons_append, List.append_eq, discsOk, ih, afterHold_cons,
      Bool.and_assoc]

/-- The scan preserves the stale-hold discontinuity invariant `discsOk`, for
inputs with no label group: the reused `item` buffer always carries the hold
of the most recently pushed non-discontinuity node. -/
theorem coordsScan_discsOk :
    ∀ (N : ℕ) (cs : List Char), cs.length ≤ N →
      ∀ (item : Node) (route : List Node) (h0 : Option Hold) (r : List Node),
        '(' ∉ cs →
        item.hold = afterHold h0 route →
        discsOk h0 route = true →
        coordsScan item route cs = .ok r →
        discsOk h0 r = true := by
  intro N
  induction N with
  | zero =>
    intro cs hlen item route h0 r hpar hhold hok hscan
    have hnil : cs = [] := List.length_eq_zero.mp (Nat.le_zero.mp hlen)
    subst hnil
    rw [coordsScan] at hscan
    cases hscan
    exact hok
  | succ N ih =>
    intro cs hlen item route h0 r hpar hhold hok hscan
    cases cs with
    | nil =>
      rw [coordsScan] at hscan
      cases hscan
      exact hok
    | cons c cs' =>
      simp only [List.length_cons, Nat.add_le_add_iff_right] at hlen
      rw [coordsScan] at hscan
      have hcp : ¬(c = '(' ∧ route ≠ []) := by
        rintro ⟨hc, -⟩
        exact hpar (hc ▸ List.mem_cons_self c cs')
      rw [if_neg hcp] at hscan
      have hpar' : '(' ∉ cs' := fun hm => hpar (List.mem_cons_of_mem _ hm)
      by_cases hdash : c = '-'
      · rw [if_pos hdash] at hscan
        refine ih cs' hlen _ _ h0 r hpar' ?_ ?_ hscan
        · rw [afterHold_append_singleton]
          have hd : Node.IsDiscontinuity
              { item with lat := none, highlight := false, label := "" } = true := rfl
          rw [hd, if_pos rfl]
          exact hhold
        · rw [discsOk_append_singleton]
          have hd : Node.IsDiscontinuity
              { item with lat := none, highlight := false, label := "" } = true := rfl
          simp [hok, hd, ← hhold]
      · rw [if_neg hdash] at hscan
        split at hscan
        · exact Except.noConfusion hscan
        · split at hscan
          · exact Except.noConfusion hscan
          · rename_i w0 hdec item' rest hws
            obtain ⟨hdisc, hlabel, hsuf⟩ := wordScan_ok_props _ _ _ _ hws
            have hlt := wordScan_rest_lt _ _ _ _ hws
            refine ih rest (by omega) item' (route ++ [item']) h0 r
              (fun hm => hpar' (hsuf.subset hm)) ?_ ?_ hscan
            · rw [afterHold_append_singleton, hdisc]
              simp
            · rw [discsOk_append_singleton, hdisc]
              simp [hok]

theorem labelScan_no_paren (s : List Char) : ∀ (acc rest : List Char),
    '(' ∉ s → ')' ∉ s →
    labelScan 1 acc (s ++ ')' :: rest) = .ok (acc ++ s, rest) := by
  induction s with
  | nil => intro acc rest _ _; simp [labelScan]
  | cons a s ih =>
    intro acc rest hp hq
    have ha1 : a ≠ '(' := fun h => hp (h ▸ List.mem_cons_self a s)
    have ha2 : a ≠ ')' := fun h => hq (h ▸ List.mem_cons_self a s)
    simp only [List.cons_append, List.append_eq, labelScan, if_neg ha1, if_neg ha2]
    rw [ih (acc ++ [a]) rest (fun hm => hp (List.mem_cons_of_mem _ hm))
      (fun hm => hq (List.mem_cons_of_mem _ hm))]
    simp

theorem updateLast_length (f : Node → Node) : ∀ (l : List Node),
    (updateLast f l).length = l.length
  | [] => rfl
  | [_] => rfl
  | n :: m :: rest => by
    simp only [updateLast, List.length_cons, updateLast_length f (m :: rest)]

theorem updateLast_getElemQM (f : Node → Node) : ∀ (l : List Node) (k : ℕ),
    k + 1 < l.length → (updateLast f l)[k]? = l[k]?
  | [], k, h => by simp at h
  | [_], k, h => by simp at h
  | n :: m :: rest, 0, h => by simp [updateLast]
  | n :: m :: rest, k + 1, h => by
    simp only [updateLast, List.getElem?_cons_succ]
    exact updateLast_getElemQM f (m :: rest) k (by simpa using h)

theorem preResolve_malformed (c : Char) (cs : List Char) (hd : '0' ≤ c ∧ c ≤ '9')
    (hbad : literalShapeOk (c :: cs) = false) :
    preResolveChars (c :: cs) = { lat := some 0, lon := some 0 } := by
  rw [show preResolveChars (c :: cs)
      = if '0' ≤ c ∧ c ≤ '9' then parseLiteral (c :: cs)
        else { lat := none, lon := some 0 } from rfl,
    if_pos hd]
  unfold parseLiteral
  unfold literalShapeOk at hbad
  cases hdw : strtoulRest (c :: cs) with
  | nil => simp [hdw]
  | cons latSign r1 =>
    rw [hdw] at hbad
    simp only [] at hbad
    simp only [hdw]
    by_cases h1 : latSign ≠ 'N' ∧ latSign ≠ 'S'
    · rw [if_pos h1]
    · rw [if_neg h1]
      push_neg at h1
      have hfirst : (latSign == 'N' || latSign == 'S') = true := by
        by_cases hN : latSign = 'N'
        · simp [hN]
        · simp [h1 hN]
      rw [hfirst] at hbad
      simp only [Bool.true_and] at hbad
      cases hdw2 : strtoulRest r1 with
      | nil => simp [hdw2]
      | cons lonSign r2 =>
        rw [hdw2] at hbad
        simp only [] at hbad
        simp only [hdw2]
        have h2 : lonSign ≠ 'E' ∧ lonSign ≠ 'W' := by
          constructor <;> intro hE <;> simp [hE] at hbad
        rw [if_pos h2]

/-! ### Claim theorems: Route Resolver -/

/-- Claim C1 (amended): a point token whose name begins with a digit but
fails the literal parser's two guards — a number `strtoul` accepts
(digits, optionally preceded by one `+`/`-` sign, the sign only possible
before the longitude run), then `N`/`S`, then such a number, then
`E`/`W` — is pre-resolved to the origin `{0.0, 0.0}`, not to the NaN
sentinel, because both `goto ll_fail` paths fire before any accumulation
and leave the `{ 0.0, 0.0 }` initialiser in place.  Resolving such a point
later therefore silently succeeds at latitude 0, longitude 0 (absent a
same-named database element), instead of failing with "could not find
point": here shown for a one-token route against an empty database.  Only
non-digit-leading names receive the NaN marker. -/
theorem malformed_literal_resolves_to_origin (c : Char) (cs : List Char)
    (adep ades : Position) (hd : '0' ≤ c ∧ c ≤ '9')
    (hbad : literalShapeOk (c :: cs) = false) (hslash : '/' ∉ c :: cs) :
    preResolveChars (c :: cs) = { lat := some 0, lon := some 0 }
      ∧ routeSourceParse (fun _ => none) (fun _ => none) [] [] adep ades
          [String.mk (c :: cs)]
          = .ok (none, [{ lat := some 0, lon := some 0, highlight := false,
                          label := "", hold := none }]) := by
  have hpre := preResolve_malformed c cs hd hbad
  refine ⟨hpre, ?_⟩
  have hfind : (c :: cs).findIdx? (· == '/') = none :=
    List.findIdx?_eq_none_iff.mpr
      (fun x hx => beq_eq_false_iff_ne.mpr (fun he => hslash (he ▸ hx)))
  have h1 : ¬ c < '0' := not_lt.mpr hd.1
  have h2 : ¬ '9' < c := not_lt.mpr hd.2
  simp +decide [routeSourceParse, routeTokensPhase, tokensGo, pointParse, insertPP,
    fillPositions, fillAirways, resolveWalk, walkGo, resolveEndpoint, spliceStep,
    mkWalkNode, posNode, List.lookup, hfind, hpre, h1, h2,
    show (String.mk (c :: cs)).toList = c :: cs from rfl]

/-- Witness for `malformed_literal_resolves_to_origin` at the token "1X". -/
theorem malformed_literal_resolves_to_origin_witness :
    (('0' ≤ '1' ∧ '1' ≤ '9') ∧ literalShapeOk ('1' :: ['X']) = false
        ∧ '/' ∉ '1' :: ['X'])
      ∧ preResolveChars ('1' :: ['X']) = { lat := some 0, lon := some 0 }
      ∧ routeSourceParse (fun _ => none) (fun _ => none) [] []
          { lat := some 0, lon := some 0 } { lat := some 0, lon := some 0 }
          [String.mk ('1' :: ['X'])]
          = .ok (none, [{ lat := some 0, lon := some 0, highlight := false,
                          label := "", hold := none }]) :=
  ⟨⟨by decide, by decide, by decide⟩,
    malformed_literal_resolves_to_origin '1' ['X']
      { lat := some 0, lon := some 0 } { lat := some 0, lon := some 0 }
      (by decide) (by decide) (by decide)⟩

/-- Claim C1, counterexample: "1X" begins with a digit and is not a
well-formed coordinate literal, yet its pre-resolved position is the
origin, not the NaN sentinel, and resolving it (empty database) succeeds
with a node at 0°N 0°E instead of failing with "could not find point".
Moreover the guards are laxer than the claim's sign-less grammar: the
token "12N+34E" passes them via the + sign `strtoul` accepts before the
longitude run and pre-resolves to (12, 34). -/
theorem malformed_literal_claim_false :
    preResolveChars "1X".toList = { lat := some 0, lon := some 0 }
      ∧ ({ lat := some 0, lon := some 0 } : Position).lat ≠ none
      ∧ routeSourceParse (fun _ => none) (fun _ => none) [] []
          { lat := some 0, lon := some 0 } { lat := some 0, lon := some 0 } ["1X"]
          = .ok (none, [{ lat := some 0, lon := some 0, highlight := false,
                          label := "", hold := none }])
      ∧ literalShapeOk "12N+34E".toList = true
      ∧ parseLiteral "12N+34E".toList = { lat := some 12, lon := some 34 } := by
  refine ⟨by decide, by simp, ?_, by decide, ?_⟩
  · simp +decide [routeSourceParse, routeTokensPhase, tokensGo, pointParse, stoiM,
      digitsVal, preResolveChars, parseLiteral, strtoulRest, strtoulVal, strtoulConv,
      accLoop, insertPP, insertKeyIfAbsent,
      fillPositions, fillAirways, resolveWalk, walkGo, resolveEndpoint, spliceStep,
      mkWalkNode, posNode, List.lookup]
  · simp +decide [parseLiteral, strtoulRest, strtoulVal, strtoulConv, digitsVal,
      accLoop]

/-- Claim C4 (amended): resolving the three-token sequence
"A DCT B/090R4", with `A` and `B` resolvable by name lookup and no
departure/arrival procedure found, yields the 2-node route of the claim:
node 1 carries label "A", node 2 carries label "B" and a hold of length 4,
course 90, right turns.  (The claim's two-token sequence "A B/090R4" has an
even token count, so the resolver consumes "A" as the route name — see the
counterexample.) -/
theorem route_a_dct_b_hold_two_nodes (db : String → Option (ℚ × ℚ))
    (atsDb : String → Option (List (ℚ × ℚ))) (adep ades : Position)
    (la lo lb lob : ℚ)
    (hA : db "A" = some (la, lo)) (hB : db "B" = some (lb, lob)) :
    routeSourceParse db atsDb [] [] adep ades ["A", "DCT", "B/090R4"]
      = .ok (none,
        [{ lat := some la, lon := some lo, highlight := false, label := "A", hold := none },
         { lat := some lb, lon := some lob, highlight := false, label := "B",
           hold := some { length := 4, course := 90, left_turns := false } }]) := by
  simp +decide [routeSourceParse, routeTokensPhase, tokensGo, pointParse, stoiM,
    digitsVal, preResolveChars, parseLiteral, insertPP, insertKeyIfAbsent,
    fillPositions, fillAirways, resolveWalk, walkGo, resolveEndpoint, spliceStep,
    mkWalkNode, posNode, List.lookup, hA, hB]

/-- Witness for `route_a_dct_b_hold_two_nodes` with `A` at (1, 2) and `B`
at (3, 4). -/
theorem route_a_dct_b_hold_two_nodes_witness :
    ((fun n => if n = "A" then some ((1 : ℚ), (2 : ℚ))
               else if n = "B" then some (3, 4) else none) "A" = some (1, 2))
      ∧ ((fun n => if n = "A" then some ((1 : ℚ), (2 : ℚ))
                   else if n = "B" then some (3, 4) else none) "B" = some (3, 4))
      ∧ routeSourceParse
          (fun n => if n = "A" then some ((1 : ℚ), (2 : ℚ))
                    else if n = "B" then some (3, 4) else none)
          (fun _ => none) [] []
          { lat := some 0, lon := some 0 } { lat := some 0, lon := some 0 }
          ["A", "DCT", "B/090R4"]
          = .ok (none,
            [{ lat := some 1, lon := some 2, highlight := false, label := "A", hold := none },
             { lat := some 3, lon := some 4, highlight := false, label := "B",
               hold := some { length := 4, course := 90, left_turns := false } }]) :=
  ⟨rfl, rfl,
    route_a_dct_b_hold_two_nodes
      (fun n => if n = "A" then some ((1 : ℚ), (2 : ℚ))
                else if n = "B" then some (3, 4) else none)
      (fun _ => none) { lat := some 0, lon := some 0 } { lat := some 0, lon := some 0 }
      1 2 3 4 rfl rfl⟩

/-- Claim C4, counterexample: the token sequence "A B/090R4" of the claim
has an even token count, so `RouteSource::Parse` consumes "A" as the route
name (`if ((end - start) % 2 == 0) name = *(start++);`) and resolves a
single point: the result is a 1-node route named "A" — not the claimed
2-node route with node 1 labelled "A". -/
theorem route_name_token_consumed :
    routeSourceParse
      (fun n => if n = "A" then some ((1 : ℚ), (2 : ℚ))
                else if n = "B" then some (3, 4) else none)
      (fun _ => none) [] [] { lat := some 0, lon := some 0 } { lat := some 0, lon := some 0 }
      ["A", "B/090R4"]
      = .ok (some "A",
        [{ lat := some 3, lon := some 4, highlight := false, label := "B",
           hold := some { length := 4, course := 90, left_turns := false } }]) := by
  simp +decide [routeSourceParse, routeTokensPhase, tokensGo, pointParse, stoiM,
    digitsVal, preResolveChars, parseLiteral, insertPP, insertKeyIfAbsent,
    fillPositions, fillAirways, resolveWalk, walkGo, resolveEndpoint, spliceStep,
    mkWalkNode, posNode, List.lookup]

/-- Claim C5: for a plain airway (not a departure or arrival procedure)
whose sequence holds `seg_start` first at index `i` and `seg_end` first at
index `j`, the splice inserts exactly the sequence elements strictly
between `i` and `j` — forward for `i < j`, reversed for `i > j`, and none
for `i = j`. -/
theorem splice_strictly_between (seq : List Position) (s e : Position) (i j : ℕ)
    (pn an qn : String)
    (hi : seq.findIdx? (fun p => posEq p s) = some i)
    (hj : seq.findIdx? (fun p => posEq p e) = some j) :
    splice false false seq s e pn an qn
      = .ok (if i < j then (seq.drop (i + 1)).take (j - (i + 1))
             else ((seq.drop (j + 1)).take (i - (j + 1))).reverse) := by
  have hik := findIdxQ_lt_end _ seq 0 i hi
  have hjk := findIdxQ_lt_end _ seq 0 j hj
  unfold splice
  simp only [Bool.false_eq_true, if_false, hi, hj, Bool.or_self]
  by_cases hij : i < j
  · rw [if_pos hij, range'_map_posGetD seq (j - (i + 1)) (i + 1) (by omega)]
    simp [hij]
  · rw [if_neg hij, List.map_reverse,
      range'_map_posGetD seq (i - (j + 1)) (j + 1) (by omega)]
    simp [hij]

/-- Witness for `splice_strictly_between` on a 4-element airway sequence
with endpoints at indices 0 and 3: the spliced nodes are the two middle
elements, in order. -/
theorem splice_strictly_between_witness :
    ([{ lat := some 1, lon := some 1 }, { lat := some 2, lon := some 2 },
      { lat := some 3, lon := some 3 }, { lat := some 4, lon := some 4 }]
        : List Position).findIdx?
        (fun p => posEq p { lat := some 1, lon := some 1 }) = some 0
      ∧ ([{ lat := some 1, lon := some 1 }, { lat := some 2, lon := some 2 },
          { lat := some 3, lon := some 3 }, { lat := some 4, lon := some 4 }]
            : List Position).findIdx?
            (fun p => posEq p { lat := some 4, lon := some 4 }) = some 3
      ∧ splice false false
          [{ lat := some 1, lon := some 1 }, { lat := some 2, lon := some 2 },
           { lat := some 3, lon := some 3 }, { lat := some 4, lon := some 4 }]
          { lat := some 1, lon := some 1 } { lat := some 4, lon := some 4 }
          "P" "AW" "Q"
          = .ok [{ lat := some 2, lon := some 2 }, { lat := some 3, lon := some 3 }] :=
  ⟨by decide, by decide,
    (splice_strictly_between _ _ _ 0 3 "P" "AW" "Q" (by decide) (by decide)).trans
      rfl⟩

/-! ### Claim theorems: Route Registry -/

/-- Claim C7: first, for every command that reaches a source parse (prefix
".plot", sub-command neither "help" nor "clear") and whose parse fails —
`Parse` returns an error, or succeeds with an empty route — the route
registry is left exactly as it was (the name counter may advance, the
registry may not).  Second, across every command whatsoever, no empty
route is ever stored: if every registry entry is nonempty before a
command, every entry is nonempty after it. -/
theorem registry_unchanged_on_parse_failure
    (parse : String → String → List String → Except String (Route × String))
    (st : PluginState) :
    (∀ (p1 : String) (args : List String), p1 ≠ "help" → p1 ≠ "clear" →
        (match parse (if p1 = "coords" ∨ p1 = "route" then p1 else "route")
            (toString (st.name_counter + 1))
            (if p1 = "coords" ∨ p1 = "route" then args else p1 :: args) with
          | .ok (r, _) => r = []
          | .error _ => True) →
        (onCompileCommand parse st (".plot" :: p1 :: args)).2.routes = st.routes)
    ∧ (∀ (parts : List String), (∀ e ∈ st.routes, e.2 ≠ []) →
        ∀ e ∈ (onCompileCommand parse st parts).2.routes, e.2 ≠ []) := by
  constructor
  · intro p1 args hh hc hfail
    unfold onCompileCommand
    try simp only []
    rw [if_neg (fun h => h rfl)]
    try simp only []
    rw [if_neg hh, if_neg hc]
    try simp only []
    split
    · rename_i route nm hp
      rw [hp] at hfail
      simp only [] at hfail
      subst hfail
      simp
    · rfl
  · intro parts hinv e he
    match parts with
    | [] => exact hinv e he
    | p0 :: rest =>
      unfold onCompileCommand at he
      try simp only [] at he
      by_cases h0 : p0 ≠ ".plot"
      · rw [if_pos h0] at he
        exact hinv e he
      · rw [if_neg h0] at he
        match rest with
        | [] => exact hinv e he
        | p1 :: args =>
          try simp only [] at he
          by_cases hh : p1 = "help"
          · rw [if_pos hh] at he
            exact hinv e he
          · rw [if_neg hh] at he
            by_cases hc : p1 = "clear"
            · rw [if_pos hc] at he
              by_cases ha : args ≠ []
              · rw [if_pos ha] at he
                exact hinv e (mem_eraseRoute_foldl e args st.routes he)
              · rw [if_neg ha] at he
                simp at he
            · rw [if_neg hc] at he
              try simp only [] at he
              split at he
              · rename_i route nm hp
                by_cases hr : route.length > 0
                · rw [if_pos hr] at he
                  rcases mem_insertRoute e nm route st.routes he with h1 | h2
                  · rw [h1]
                    intro hcon
                    simp only [Prod.snd] at hcon
                    rw [hcon] at hr
                    simp at hr
                  · exact hinv e h2
                · rw [if_neg hr] at he
                  exact hinv e he
              · exact hinv e he

/-! ### Claim theorems: Coordinate Codec -/

/-- Claim C6: for every 7-character codec word `w0..w6` of base-62 digits,
the decoded node position equals the closed form stated in the spec (minute
and second units, degree-extension bits 2 and 4–5, sign bits 1 and 3). -/
theorem wordPos_eq_wordPosSpec (w0 w1 w2 w3 w4 w5 w6 : ℕ)
    (hb0 : w0 < 62) (hb1 : w1 < 62) (hb2 : w2 < 62) (hb3 : w3 < 62)
    (hb4 : w4 < 62) (hb5 : w5 < 62) (hb6 : w6 < 62) :
    wordPos w0 w1 w2 w3 w4 w5 w6 = wordPosSpec w0 w1 w2 w3 w4 w5 w6 := by
  interval_cases w0 <;> simp +decide [wordPos, wordPosSpec, Prod.ext_iff]

/-- Witness for `wordPos_eq_wordPosSpec` at the word "ABCDEFG"
(`w0..w6 = 0..6`): the decoded position is
`(1 + (2 + 3/60)/60, 4 + (5 + 6/60)/60)`. -/
theorem wordPos_eq_wordPosSpec_witness :
    wordPos 0 1 2 3 4 5 6 = (1 + (2 + 3/60)/60, 4 + (5 + 6/60)/60) :=
  (wordPos_eq_wordPosSpec 0 1 2 3 4 5 6 (by norm_num) (by norm_num) (by norm_num)
    (by norm_num) (by norm_num) (by norm_num) (by norm_num)).trans
    (by norm_num [wordPosSpec, Prod.ext_iff])

/-- Claim C9 (amended): at every structural position the scanning loop
reaches, a character outside the base-62 alphabet that is neither `-` nor
`(` fails the whole parse with the "invalid structural character" error.
The one exception, which the counterexample `leading_at_sign_skipped`
exhibits, is an `@` standing as the very first character of the remaining
raw text: `CoordsSource::Parse` skips it before the loop starts, so it is
never seen as a structural character. -/
theorem invalid_structural_char_errors (item : Node) (route : List Node)
    (c : Char) (cs : List Char)
    (hdec : decode c = none) (hdash : c ≠ '-') (hparen : c ≠ '(') :
    coordsScan item route (c :: cs) = .error "invalid structural character" := by
  rw [coordsScan]
  simp [hdec, hdash, hparen]

/-- Witness for `invalid_structural_char_errors` at the character `$`. -/
theorem invalid_structural_char_errors_witness :
    coordsScan initNode [] ['$'] = .error "invalid structural character" :=
  invalid_structural_char_errors initNode [] '$' [] (by decide) (by decide) (by decide)

/-- Claim C9, counterexample: `@` is outside the base-62 alphabet and is
neither `-` nor `(`, yet a parse whose remaining raw text starts with `@`
does not fail: the first character is skipped and the parse succeeds
(here with an empty route). -/
theorem leading_at_sign_skipped :
    decode '@' = none ∧ '@' ≠ '-' ∧ '@' ≠ '(' ∧
      coordsParseFull ["@"] "@".toList = .ok ([], none) := by
  refine ⟨by decide, by decide, by decide, ?_⟩
  simp [coordsParseFull, coordsParseRem, coordsScan, show "@".toList = ['@'] from rfl]

/-- Claim C3 (amended): for every input containing no label group, each
discontinuity node of a successful Coordinate Codec parse carries an empty
label and exactly the hold of the nearest preceding non-discontinuity node
(no hold when there is none): the `-` branch reuses the scan buffer without
clearing its hold.  (With label groups present the label part also fails:
a `(...)` immediately after a `-` attaches its text to the discontinuity
node, see the counterexample.) -/
theorem discontinuity_stale_hold_invariant (cs : List Char) (r : List Node)
    (hpar : '(' ∉ cs) (h : coordsParseRem cs = .ok r) : discsOk none r = true := by
  have base : ∀ (cs2 : List Char) (r2 : List Node), '(' ∉ cs2 →
      coordsScan initNode [] cs2 = .ok r2 → discsOk none r2 = true :=
    fun cs2 r2 hp hs =>
      coordsScan_discsOk cs2.length cs2 le_rfl initNode [] none r2 hp rfl rfl hs
  unfold coordsParseRem at h
  split at h
  · rename_i rest
    exact base rest r (fun hm => hpar (List.mem_cons_of_mem _ hm)) h
  · exact base cs r hpar h

/-- Witness for `discontinuity_stale_hold_invariant` at the input
"AAAAAAA-": one real node, then a discontinuity with empty label and no
hold. -/
theorem discontinuity_stale_hold_invariant_witness : discsOk none
    [{ lat := some 0, lon := some 0, highlight := false, label := "", hold := none },
     { lat := none, lon := some 0, highlight := false, label := "", hold := none }] = true :=
  discontinuity_stale_hold_invariant ("AAAAAAA-".toList) _ (by decide)
    (by simp +decide [coordsParseRem, coordsScan, wordScan, decode, wordPos, initNode,
      show "AAAAAAA-".toList = ['A','A','A','A','A','A','A','-'] from rfl])

/-- Claim C3, counterexample: decoding "BAAAAAAAB-(X)" (a word that attaches
a hold, then `-`, then a label group) produces a discontinuity node that
carries both the stale hold of the preceding word and the label "X":
the claimed invariant (discontinuity nodes have an empty label and no
hold) is false on the code. -/
theorem discontinuity_carries_stale_data :
    coordsParseRem "BAAAAAAAB-(X)".toList
        = .ok [{ lat := some 0, lon := some 0, highlight := false, label := "",
                 hold := some { length := 1, course := 0, left_turns := false } },
               { lat := none, lon := some 0, highlight := false,
                 label := String.mk ['X', Char.ofNat 0],
                 hold := some { length := 1, course := 0, left_turns := false } }]
      ∧ Node.IsDiscontinuity
          { lat := none, lon := some 0, highlight := false,
            label := String.mk ['X', Char.ofNat 0],
            hold := some { length := 1, course := 0, left_turns := false } } = true
      ∧ String.mk ['X', Char.ofNat 0] ≠ ""
      ∧ (some { length := 1, course := 0, left_turns := false } : Option Hold) ≠ none := by
  refine ⟨?_, rfl, by decide, by simp⟩
  simp +decide [coordsParseRem, coordsScan, wordScan, labelScan, decode, wordPos,
    wordHold, updateLast, initNode,
    show "BAAAAAAAB-(X)".toList
      = ['B','A','A','A','A','A','A','A','B','-','(','X',')'] from rfl]

/-- Claim C8 (amended): a `(...)` label group following at least one emitted
node attaches its contents — plus one trailing NUL character, an off-by-one
of the `std::wstring sc(end - start + 1, L'\0')` allocation — as the label
of the most recently emitted node only: the scan continues with the last
node relabelled, the route keeps its length, and every node before the last
is unchanged.  No node is emitted for the group itself. -/
theorem label_attaches_to_last_node (s rest : List Char) (item : Node)
    (route : List Node) (hne : route ≠ []) (hp : '(' ∉ s) (hq : ')' ∉ s) :
    coordsScan item route ('(' :: (s ++ ')' :: rest))
        = coordsScan item
            (updateLast (fun n => { n with label := String.mk (s ++ [Char.ofNat 0]) }) route)
            rest
      ∧ (updateLast (fun n => { n with label := String.mk (s ++ [Char.ofNat 0]) }) route).length
          = route.length
      ∧ ∀ k, k + 1 < route.length →
          (updateLast (fun n => { n with label := String.mk (s ++ [Char.ofNat 0]) }) route)[k]?
            = route[k]? := by
  refine ⟨?_, updateLast_length _ _, fun k hk => updateLast_getElemQM _ _ k hk⟩
  rw [coordsScan, if_pos ⟨rfl, hne⟩]
  split
  · rename_i e heq
    rw [labelScan_no_paren s [] rest hp hq] at heq
    exact Except.noConfusion heq
  · rename_i content rest' heq
    rw [labelScan_no_paren s [] rest hp hq] at heq
    rw [Except.ok.injEq, Prod.mk.injEq] at heq
    obtain ⟨h1, h2⟩ := heq
    rw [← h1, ← h2]
    simp

/-- Witness for `label_attaches_to_last_node`: the group "(ABC)" after a
single node rewrites that node's label and ends the scan. -/
theorem label_attaches_to_last_node_witness :
    (([{ lat := some 0, lon := some 0, highlight := false, label := "", hold := none }]
        : List Node) ≠ [])
      ∧ coordsScan initNode
          [{ lat := some 0, lon := some 0, highlight := false, label := "", hold := none }]
          ('(' :: (['A','B','C'] ++ ')' :: []))
        = coordsScan initNode
            (updateLast (fun n => { n with label := String.mk (['A','B','C'] ++ [Char.ofNat 0]) })
              [{ lat := some 0, lon := some 0, highlight := false, label := "", hold := none }])
            [] := by
  refine ⟨by simp, ?_⟩
  exact (label_attaches_to_last_node ['A','B','C'] [] initNode
    [{ lat := some 0, lon := some 0, highlight := false, label := "", hold := none }]
    (by simp) (by decide) (by decide)).1

/-- Claim C8, counterexample: decoding one word followed by "(ABC)" yields a
route of length 1 whose node's label is the 4-character string "ABC" plus a
NUL — not the 3-character string "ABC" the claim states. -/
theorem label_trailing_nul :
    coordsParseRem "AAAAAAA(ABC)".toList
        = .ok [{ lat := some 0, lon := some 0, highlight := false,
                 label := String.mk ['A','B','C', Char.ofNat 0], hold := none }]
      ∧ String.mk ['A','B','C', Char.ofNat 0] ≠ "ABC" := by
  refine ⟨?_, by decide⟩
  simp +decide [coordsParseRem, coordsScan, wordScan, labelScan, decode, wordPos,
    updateLast, initNode,
    show "AAAAAAA(ABC)".toList = ['A','A','A','A','A','A','A','(','A','B','C',')'] from rfl]

/-- Claim C2, counterexample: at `t = 0` (which lies in `[0, 1]`) the
program colour is `(255, 0, 0)` (red) while the colour-ramp closed form
stated in the claim gives `(0, 0, 255)` (blue): the claim has the red and
blue channels exchanged. -/
theorem colour_claim_false_at_zero :
    (0 : ℚ) ≤ 0 ∧ (0 : ℚ) ≤ 1 ∧
      colour 0 = (255, 0, 0) ∧ colourClaim 0 = (0, 0, 255) ∧
      colour 0 ≠ colourClaim 0 := by
  refine ⟨le_refl 0, by norm_num, ?_, ?_, ?_⟩ <;>
    norm_num [colour, colourClaim, truncQ]

/-- Claim C2 (amended): for every `t` in `[0, 1]` the renderer colour ramp
returns, with `x = 255·(1 − |1 − 2t|)` truncated to int: red `255` when
`t ≤ 0.5` and `x` otherwise, blue `255` when `t ≥ 0.5` and `x` otherwise,
and green `0` — i.e. `t = 0` maps to red, `t = 0.5` to magenta (both
extreme channels saturated), `t = 1` to blue. -/
theorem colour_eq_colourAmended (t : ℚ) (h0 : 0 ≤ t) (h1 : t ≤ 1) :
    colour t = colourAmended t := by
  rcases lt_trichotomy t (1/2) with h | h | h
  · simp only [colour, colourAmended]
    rw [if_pos h, if_pos (le_of_lt h), if_neg (not_lt_of_lt h),
      if_neg (not_le_of_lt h)]
    norm_num [mul_comm]
  · subst h
    norm_num [colour, colourAmended, truncQ]
  · simp only [colour, colourAmended]
    rw [if_neg (not_lt_of_lt h), if_neg (not_le_of_lt h), if_pos h,
      if_pos (le_of_lt h)]
    norm_num [mul_comm]

/-- Witness for `colour_eq_colourAmended` at `t = 1/4`. -/
theorem colour_eq_colourAmended_witness :
    (0 : ℚ) ≤ 1/4 ∧ (1/4 : ℚ) ≤ 1 ∧ colour (1/4) = colourAmended (1/4) :=
  ⟨by norm_num, by norm_num,
    colour_eq_colourAmended (1/4) (by norm_num) (by norm_num)⟩

/-- Claim C10, counterexample: with leg vector `(0, 3)` in pixel space and
right turns, the integer offset vector stored by the program is `(1, 0)` at
hold length 4 but `(0, 0)` at hold length 8: doubling the length does not
halve the offset magnitude (the squared magnitudes are 1 and 0, and
`4·0 ≠ 1`), because the components are truncated to `long`. -/
theorem holdRad_halving_false :
    holdRad 0 3 4 false = (1, 0) ∧ holdRad 0 3 8 false = (0, 0) ∧
      ¬ 4 * ((holdRad 0 3 8 false).1 ^ 2 + (holdRad 0 3 8 false).2 ^ 2)
          = (holdRad 0 3 4 false).1 ^ 2 + (holdRad 0 3 4 false).2 ^ 2 := by
  refine ⟨?_, ?_, ?_⟩ <;>
    norm_num [holdRad, realRad, truncQ, HOLD_RADIUS]

/-- Claim C10 (amended): for a fixed leg vector, flipping the turn
direction exactly negates both components of the stored integer offset
vector `(rad_x, rad_y)`; and for the real-valued offset vector before the
truncating store into `long`, doubling the hold length halves both
components and so quarters the squared magnitude (radius ∝ 1/length).
After truncation the halving holds only approximately. -/
theorem holdRad_flip_and_halving (leg_x leg_y : ℤ) (L : ℚ) (left : Bool)
    (hL : 0 < L) :
    holdRad leg_x leg_y L (!left)
        = (-(holdRad leg_x leg_y L left).1, -(holdRad leg_x leg_y L left).2) ∧
      realRad leg_x leg_y (2 * L)
        = ((realRad leg_x leg_y L).1 / 2, (realRad leg_x leg_y L).2 / 2) ∧
      (realRad leg_x leg_y (2 * L)).1 ^ 2 + (realRad leg_x leg_y (2 * L)).2 ^ 2
        = ((realRad leg_x leg_y L).1 ^ 2 + (realRad leg_x leg_y L).2 ^ 2) / 4 := by
  have hL0 : L ≠ 0 := ne_of_gt hL
  have hkey : realRad leg_x leg_y (2 * L)
      = ((realRad leg_x leg_y L).1 / 2, (realRad leg_x leg_y L).2 / 2) := by
    simp only [realRad, HOLD_RADIUS]
    rw [show (2 : ℚ) / (2 * L) = 2 / L / 2 by rw [div_div, mul_comm]]
    exact Prod.ext (by ring) (by ring)
  refine ⟨?_, hkey, ?_⟩
  · cases left <;> simp [holdRad]
  · rw [hkey]
    ring

/-- Witness for `holdRad_flip_and_halving` at leg `(1, 2)`, length 4,
right turns. -/
theorem holdRad_flip_and_halving_witness :
    (0 : ℚ) < 4 ∧
      (holdRad 1 2 4 (!false)
          = (-(holdRad 1 2 4 false).1, -(holdRad 1 2 4 false).2) ∧
        realRad 1 2 (2 * 4)
          = ((realRad 1 2 4).1 / 2, (realRad 1 2 4).2 / 2) ∧
        (realRad 1 2 (2 * 4)).1 ^ 2 + (realRad 1 2 (2 * 4)).2 ^ 2
          = ((realRad 1 2 4).1 ^ 2 + (realRad 1 2 4).2 ^ 2) / 4) :=
  ⟨by norm_num, holdRad_flip_and_halving 1 2 4 false (by norm_num)⟩

end RoutePlotter
